import Mathlib

/-!
Verification of the agent-orchestration and hybrid-retrieval core of the
appliedai-backend repository, as a shallow embedding in Lean 4.

Each section embeds one source module:

* `DocChunkRepo`   — `app/repositories/document_chunk_repository.py`
  (`hybrid_search` rank fusion, `_apply_metadata_filters`)
* `SqliteSvc`      — `app/services/sqlite_service.py` (`_is_safe_query`)
* `SqlAgent`       — `app/agents/text_to_sql_agent.py`
* `RagAgentM`      — `app/agents/rag_agent.py`
* `ResearchAgentM` — `app/agents/research_agent.py`
* `OrchAgent`      — `app/agents/orchestrator_agent.py`
* `OrchService`    — `app/services/orchestrator_service.py`

External collaborators (database, vector index, web search, the language
model itself) are passed in as explicit function parameters, matching the
spec's treatment of them as opaque boundaries.  Python floats are modelled
as exact rationals; Python dicts as insertion-ordered association lists.
-/

namespace DocChunkRepo

/-- Insertion-ordered dict read with default 0: `rrf_scores.get(chunk_id, 0)`. -/
def rrfGet : List (String × ℚ) → String → ℚ
  | [], _ => 0
  | (k, v) :: rest, id => if k = id then v else rrfGet rest id

/-- Insertion-ordered dict write
`rrf_scores[chunk_id] = rrf_scores.get(chunk_id, 0) + add`: an existing key
keeps its position, a new key is appended at the end (Python dict semantics). -/
def rrfUpdate : List (String × ℚ) → String → ℚ → List (String × ℚ)
  | [], id, add => [(id, add)]
  | (k, v) :: rest, id, add =>
      if k = id then (k, v + add) :: rest else (k, v) :: rrfUpdate rest id add

/-- One `for rank, (chunk, _) in enumerate(results, 1)` accumulation pass of
`hybrid_search`: `done` counts the entries already enumerated, so the current
entry has 1-indexed rank `done + 1`, and each id receives
`(1 / (60 + rank)) * w`. -/
def addRanked (w : ℚ) : List (String × ℚ) → List String → ℕ → List (String × ℚ)
  | m, [], _ => m
  | m, id :: rest, done =>
      addRanked w (rrfUpdate m id ((1 / (60 + ((done + 1 : ℕ) : ℚ))) * w)) rest (done + 1)

/-- The fused score map of `hybrid_search`: the semantic pass with weight
`semantic_weight`, then the keyword pass with weight `1 - semantic_weight`,
both starting from the empty dict. -/
def rrfScoreMap (semantic_weight : ℚ) (sem kw : List String) : List (String × ℚ) :=
  addRanked (1 - semantic_weight) (addRanked semantic_weight [] sem 0) kw 0

/-- `DocumentChunkRepository.hybrid_search`, with the two underlying searches
abstracted as functions from a requested limit to the ranked id list they
return.  The source calls each with `top_k * 2`, fuses with the constant
`k = 60`, sorts the score dict's items by descending score (Python `sorted`
is a stable mergesort) and keeps the first `top_k`. -/
def hybrid_search (semSearch kwSearch : ℕ → List String) (top_k : ℕ)
    (semantic_weight : ℚ) : List (String × ℚ) :=
  let semantic_results := semSearch (top_k * 2)
  let keyword_results := kwSearch (top_k * 2)
  let scores := rrfScoreMap semantic_weight semantic_results keyword_results
  (scores.mergeSort (fun a b => decide (b.2 ≤ a.2))).take top_k

/-- 1-indexed rank of an id in a ranked list, `none` when absent. -/
def rankOf : List String → String → Option ℕ
  | [], _ => none
  | x :: rest, id => if x = id then some 1 else (rankOf rest id).map (· + 1)

/-- Contribution of one ranked list to an id's fused score: `w / (60 + r)` at
1-indexed rank `r`, and 0 when the id is absent from the list. -/
def rrfContribution (w : ℚ) (ids : List String) (id : String) : ℚ :=
  match rankOf ids id with
  | some r => w / (60 + (r : ℚ))
  | none => 0

theorem rrfGet_update_self (m : List (String × ℚ)) (id : String) (a : ℚ) :
    rrfGet (rrfUpdate m id a) id = rrfGet m id + a := by
  induction m with
  | nil => simp [rrfGet, rrfUpdate]
  | cons p rest ih =>
      obtain ⟨k, v⟩ := p
      by_cases h : k = id
      · simp [rrfGet, rrfUpdate, h]
      · simp [rrfGet, rrfUpdate, h, ih]

theorem rrfGet_update_other (m : List (String × ℚ)) (id id' : String) (a : ℚ)
    (h : id' ≠ id) : rrfGet (rrfUpdate m id' a) id = rrfGet m id := by
  induction m with
  | nil => simp [rrfGet, rrfUpdate, h]
  | cons p rest ih =>
      obtain ⟨k, v⟩ := p
      by_cases hk : k = id'
      · subst hk
        simp [rrfGet, rrfUpdate, h]
      · simp only [rrfUpdate, if_neg hk, rrfGet]
        by_cases hk2 : k = id
        · simp [hk2]
        · simp [hk2, ih]

/-- Contribution of the tail of a ranked list, `done` entries already seen. -/
def contribAfter (w : ℚ) : List String → ℕ → String → ℚ
  | [], _, _ => 0
  | x :: rest, done, id =>
      if x = id then (1 / (60 + ((done + 1 : ℕ) : ℚ))) * w
      else contribAfter w rest (done + 1) id

theorem contribAfter_of_not_mem (w : ℚ) (ids : List String) (done : ℕ) (id : String)
    (h : id ∉ ids) : contribAfter w ids done id = 0 := by
  induction ids generalizing done with
  | nil => simp [contribAfter]
  | cons x rest ih =>
      have hx : ¬ x = id := fun hxy => h (by simp [hxy])
      have h2 : id ∉ rest := fun hm => h (List.mem_cons_of_mem _ hm)
      simp only [contribAfter]
      rw [if_neg hx]
      exact ih (done + 1) h2

theorem contribAfter_eq_rank (w : ℚ) (ids : List String) (done : ℕ) (id : String) :
    contribAfter w ids done id =
      match rankOf ids id with
      | some r => (1 / (60 + ((done + r : ℕ) : ℚ))) * w
      | none => 0 := by
  induction ids generalizing done with
  | nil => simp [contribAfter, rankOf]
  | cons x rest ih =>
      by_cases hx : x = id
      · simp [contribAfter, rankOf, hx]
      · simp only [contribAfter, rankOf, hx, if_neg, if_false]
        rw [ih (done + 1)]
        cases hr : rankOf rest id with
        | none => simp
        | some r =>
            simp only [Option.map_some']
            have : done + 1 + r = done + (r + 1) := by omega
            rw [this]

theorem rrfGet_addRanked (w : ℚ) (ids : List String) (m : List (String × ℚ))
    (done : ℕ) (id : String) (hnd : ids.Nodup) :
    rrfGet (addRanked w m ids done) id = rrfGet m id + contribAfter w ids done id := by
  induction ids generalizing m done with
  | nil => simp [addRanked, contribAfter]
  | cons x rest ih =>
      have hx_not : x ∉ rest := (List.nodup_cons.mp hnd).1
      have hrest : rest.Nodup := (List.nodup_cons.mp hnd).2
      by_cases hx : x = id
      · subst hx
        rw [addRanked, ih _ _ hrest, rrfGet_update_self,
          contribAfter_of_not_mem w rest (done + 1) x hx_not]
        simp [contribAfter]
      · rw [addRanked, ih _ _ hrest, rrfGet_update_other m id x _ hx]
        simp only [contribAfter, if_neg hx]

/-- The fused score of every id is its semantic contribution plus its keyword
contribution, each `w / (60 + rank)` or 0 when absent. -/
theorem rrfGet_scoreMap (semantic_weight : ℚ) (sem kw : List String) (id : String)
    (hs : sem.Nodup) (hk : kw.Nodup) :
    rrfGet (rrfScoreMap semantic_weight sem kw) id =
      rrfContribution semantic_weight sem id +
        rrfContribution (1 - semantic_weight) kw id := by
  unfold rrfScoreMap rrfContribution
  rw [rrfGet_addRanked _ _ _ _ _ hk, rrfGet_addRanked _ _ _ _ _ hs]
  rw [contribAfter_eq_rank, contribAfter_eq_rank]
  simp only [rrfGet]
  cases hr : rankOf sem id <;> cases hr2 : rankOf kw id <;>
    simp [Nat.zero_add] <;> ring

theorem rrfUpdate_keys (m : List (String × ℚ)) (id : String) (a : ℚ) :
    (rrfUpdate m id a).map Prod.fst =
      if id ∈ m.map Prod.fst then m.map Prod.fst else m.map Prod.fst ++ [id] := by
  induction m with
  | nil => simp [rrfUpdate]
  | cons p rest ih =>
      obtain ⟨k, v⟩ := p
      by_cases h : k = id
      · simp [rrfUpdate, h]
      · have h2 : id ≠ k := Ne.symm h
        simp only [rrfUpdate, if_neg h, List.map_cons, List.mem_cons, ih]
        by_cases hm : id ∈ rest.map Prod.fst <;> simp [hm, h2]

theorem addRanked_keys_mem (w : ℚ) (ids : List String) (m : List (String × ℚ))
    (done : ℕ) (id : String) :
    (id ∈ (addRanked w m ids done).map Prod.fst) ↔
      (id ∈ m.map Prod.fst ∨ id ∈ ids) := by
  induction ids generalizing m done with
  | nil => simp [addRanked]
  | cons x rest ih =>
      rw [addRanked, ih]
      rw [rrfUpdate_keys]
      by_cases hx : x ∈ m.map Prod.fst
      · simp only [if_pos hx, List.mem_cons]
        constructor
        · rintro (h | h)
          · exact Or.inl h
          · exact Or.inr (Or.inr h)
        · rintro (h | h | h)
          · exact Or.inl h
          · exact Or.inl (h ▸ hx)
          · exact Or.inr h
      · simp only [if_neg hx, List.mem_append, List.mem_singleton, List.mem_cons]
        tauto

theorem rrfUpdate_keys_nodup (m : List (String × ℚ)) (id : String) (a : ℚ)
    (h : (m.map Prod.fst).Nodup) : ((rrfUpdate m id a).map Prod.fst).Nodup := by
  rw [rrfUpdate_keys]
  by_cases hm : id ∈ m.map Prod.fst
  · simpa [hm] using h
  · simp only [if_neg hm]
    exact List.Nodup.append h (List.nodup_singleton id) (by simpa using hm)

theorem addRanked_keys_nodup (w : ℚ) (ids : List String) (m : List (String × ℚ))
    (done : ℕ) (h : (m.map Prod.fst).Nodup) :
    ((addRanked w m ids done).map Prod.fst).Nodup := by
  induction ids generalizing m done with
  | nil => simpa [addRanked] using h
  | cons x rest ih => exact ih _ _ (rrfUpdate_keys_nodup _ _ _ h)

theorem scoreMap_keys_nodup (semantic_weight : ℚ) (sem kw : List String) :
    ((rrfScoreMap semantic_weight sem kw).map Prod.fst).Nodup :=
  addRanked_keys_nodup _ _ _ _ (addRanked_keys_nodup _ _ _ _ (by simp))

theorem mem_of_keys_nodup (m : List (String × ℚ)) (p : String × ℚ)
    (h : (m.map Prod.fst).Nodup) (hp : p ∈ m) : p.2 = rrfGet m p.1 := by
  induction m with
  | nil => cases hp
  | cons q rest ih =>
      obtain ⟨k, v⟩ := q
      rcases List.mem_cons.mp hp with hp1 | hp2
      · subst hp1
        simp [rrfGet]
      · have hk : k ≠ p.1 := by
          intro hkp
          have hmem : p.1 ∈ rest.map Prod.fst := List.mem_map_of_mem Prod.fst hp2
          rw [List.map_cons, List.nodup_cons] at h
          exact h.1 (hkp ▸ hmem)
        have hrec := ih (by rw [List.map_cons, List.nodup_cons] at h; exact h.2) hp2
        simp [rrfGet, hk, hrec]


theorem le_desc_trans :
    ∀ a b c : String × ℚ, (decide (b.2 ≤ a.2)) = true → (decide (c.2 ≤ b.2)) = true →
      (decide (c.2 ≤ a.2)) = true := by
  intro a b c h1 h2
  simp only [decide_eq_true_eq] at h1 h2 ⊢
  exact le_trans h2 h1

theorem le_desc_total :
    ∀ a b : String × ℚ, ((decide (b.2 ≤ a.2)) || (decide (a.2 ≤ b.2))) = true := by
  intro a b
  simp only [Bool.or_eq_true, decide_eq_true_eq]
  exact le_total b.2 a.2

/-- C3: `hybrid_search` obtains the semantic and keyword rankings at `2 * top_k`
candidates each, scores every id as `semantic_weight / (60 + r_s)` from its
1-indexed semantic rank plus `(1 - semantic_weight) / (60 + r_k)` from its
1-indexed keyword rank (0 from a list it is absent from), and returns the first
`top_k` of the candidates ordered by descending summed score; a record at
semantic rank 2 and keyword rank 1 with weight `1/2` scores exactly
`(1/2)/62 + (1/2)/61`, the fusion constant 60 being the same for every input. -/
theorem hybrid_search_rrf_spec
    (semSearch kwSearch : ℕ → List String) (top_k : ℕ) (semantic_weight : ℚ)
    (hs : (semSearch (top_k * 2)).Nodup) (hk : (kwSearch (top_k * 2)).Nodup) :
    (∀ p ∈ hybrid_search semSearch kwSearch top_k semantic_weight,
        p.2 = rrfContribution semantic_weight (semSearch (top_k * 2)) p.1 +
          rrfContribution (1 - semantic_weight) (kwSearch (top_k * 2)) p.1)
    ∧ (hybrid_search semSearch kwSearch top_k semantic_weight).Pairwise
        (fun a b => b.2 ≤ a.2)
    ∧ (∃ full : List (String × ℚ),
        full.Perm
          (rrfScoreMap semantic_weight (semSearch (top_k * 2)) (kwSearch (top_k * 2))) ∧
        full.Pairwise (fun a b => b.2 ≤ a.2) ∧
        hybrid_search semSearch kwSearch top_k semantic_weight = full.take top_k)
    ∧ (∀ id,
        id ∈ (rrfScoreMap semantic_weight (semSearch (top_k * 2))
                (kwSearch (top_k * 2))).map Prod.fst
          ↔ id ∈ semSearch (top_k * 2) ∨ id ∈ kwSearch (top_k * 2))
    ∧ rrfGet (rrfScoreMap (1/2) ["a", "b"] ["b"]) "b" = (1/2) / 62 + (1/2) / 61 := by
  have hperm :
      ((rrfScoreMap semantic_weight (semSearch (top_k * 2))
          (kwSearch (top_k * 2))).mergeSort (fun a b => decide (b.2 ≤ a.2))).Perm
        (rrfScoreMap semantic_weight (semSearch (top_k * 2)) (kwSearch (top_k * 2))) :=
    List.mergeSort_perm _ _
  have hsorted :
      ((rrfScoreMap semantic_weight (semSearch (top_k * 2))
          (kwSearch (top_k * 2))).mergeSort (fun a b => decide (b.2 ≤ a.2))).Pairwise
        (fun a b => b.2 ≤ a.2) := by
    have := @List.sorted_mergeSort (String × ℚ) (fun a b => decide (b.2 ≤ a.2))
      le_desc_trans le_desc_total
      (rrfScoreMap semantic_weight (semSearch (top_k * 2)) (kwSearch (top_k * 2)))
    exact this.imp (fun h => of_decide_eq_true h)
  refine ⟨?_, ?_, ?_, ?_, ?_⟩
  · intro p hp
    have hp2 : p ∈ (rrfScoreMap semantic_weight (semSearch (top_k * 2))
        (kwSearch (top_k * 2))).mergeSort (fun a b => decide (b.2 ≤ a.2)) :=
      List.mem_of_mem_take hp
    have hp3 : p ∈ rrfScoreMap semantic_weight (semSearch (top_k * 2))
        (kwSearch (top_k * 2)) := hperm.mem_iff.mp hp2
    have hval := mem_of_keys_nodup _ p (scoreMap_keys_nodup _ _ _) hp3
    rw [hval, rrfGet_scoreMap _ _ _ _ hs hk]
  · exact List.Pairwise.sublist (List.take_sublist _ _) hsorted
  · exact ⟨_, hperm, hsorted, rfl⟩
  · intro id
    unfold rrfScoreMap
    rw [addRanked_keys_mem, addRanked_keys_mem]
    simp
  · have hne : ¬ ("a" : String) = "b" := by decide
    norm_num [rrfScoreMap, addRanked, rrfUpdate, rrfGet, hne]

/-- Concrete instantiation of `hybrid_search_rrf_spec`: both candidate lists of
the example are duplicate-free, and the fused output of the example call is
sorted by descending score. -/
theorem hybrid_search_rrf_spec_witness :
    ((["a", "b"] : List String).Nodup ∧ (["b"] : List String).Nodup) ∧
    (hybrid_search (fun _ => ["a", "b"]) (fun _ => ["b"]) 2 (1/2)).Pairwise
      (fun a b => b.2 ≤ a.2) :=
  ⟨⟨by decide, by decide⟩,
    (hybrid_search_rrf_spec (fun _ => ["a", "b"]) (fun _ => ["b"]) 2 (1/2)
      (by decide) (by decide)).2.1⟩

end DocChunkRepo

namespace DocChunkRepo

/-- JSONB values stored in a chunk's `chunk_metadata` and appearing as
`Condition` operands. -/
inductive JVal
  | jint (n : ℤ)
  | jstr (s : String)
  | jbool (b : Bool)
  | jlist (xs : List JVal)

/-- One leaf of a metadata filter: `{field, type, op, value}`. -/
structure Condition where
  field : String
  type : String
  op : String
  value : JVal

/-- A record's metadata map (JSONB object). -/
abbrev Metadata := List (String × JVal)

def metaLookup (md : Metadata) (f : String) : Option JVal := md.lookup f

mutual

/-- JSON text of a value as it appears inside a stored JSON document
(strings quoted; the `", "` separator matches both `json.dumps` and jsonb
canonical output). -/
def jsonTextElem : JVal → String
  | .jint n => toString n
  | .jstr s => "\"" ++ s ++ "\""
  | .jbool b => if b then "true" else "false"
  | .jlist xs => "[" ++ jsonTextList xs ++ "]"

def jsonTextList : List JVal → String
  | [] => ""
  | [x] => jsonTextElem x
  | x :: rest => jsonTextElem x ++ ", " ++ jsonTextList rest

end

/-- PostgreSQL `.astext` of a JSON value: a string is unquoted, everything
else keeps its JSON text. -/
def astext : JVal → String
  | .jstr s => s
  | v => jsonTextElem v

/-- SQL `LIKE '%pat%'` / Python `in` substring test on character lists. -/
def subSeq (p : List Char) : List Char → Bool
  | [] => p.isPrefixOf []
  | c :: t => p.isPrefixOf (c :: t) || subSeq p t

/-- SQLAlchemy `.contains` on a text expression: a substring test. -/
def sqlContains (s pat : String) : Bool := subSeq pat.data s.data

mutual

/-- Python `repr(value)` (the form `str` uses for list elements). -/
def pyRepr : JVal → String
  | .jint n => toString n
  | .jstr s => "\x27" ++ s ++ "\x27"
  | .jbool b => if b then "True" else "False"
  | .jlist xs => "[" ++ pyReprList xs ++ "]"

def pyReprList : List JVal → String
  | [] => ""
  | [x] => pyRepr x
  | x :: rest => pyRepr x ++ ", " ++ pyReprList rest

end

/-- Python `str(value)` as interpolated by the f-string `f'"{value}"'`. -/
def pyStr : JVal → String
  | .jstr s => s
  | v => pyRepr v

/-- The source's list-containment test
`chunk_metadata[field].astext.contains(f'"{value}"')`: the operand's Python
text, wrapped in double quotes, tested as a substring of the field's JSON
text.  This coincides with membership only for arrays of quote-free strings:
an array of numbers can never contain the quoted pattern, so e.g. a
`list[int]` field silently matches nothing.  A missing field yields SQL NULL,
which filters false. -/
def listContains (mv : Option JVal) (x : JVal) : Bool :=
  match mv with
  | some v => sqlContains (astext v) ("\"" ++ pyStr x ++ "\"")
  | none => false

/-- Python iteration `for v in value` in the `in_list` branch: a list iterates
its elements, a string iterates its characters (each a one-character string),
anything else raises `TypeError`. -/
def pyIter : JVal → Except String (List JVal)
  | .jlist vs => .ok vs
  | .jstr s => .ok (s.data.map fun c => JVal.jstr (String.singleton c))
  | _ => .error "TypeError: value is not iterable"

def parseNatAux : List Char → ℕ → Option ℕ
  | [], acc => some acc
  | c :: cs, acc => if c.isDigit then parseNatAux cs (acc * 10 + (c.toNat - 48)) else none

/-- PostgreSQL text-to-integer coercion (optional sign then digits). -/
def pgParseInt (s : String) : Option ℤ :=
  match s.toList with
  | [] => none
  | '-' :: cs => if cs = [] then none else (parseNatAux cs 0).map (fun n => -(n : ℤ))
  | cs => (parseNatAux cs 0).map (fun n => (n : ℤ))

/-- `chunk_metadata[field].astext.cast(Integer)` applied to a record: a missing
field is SQL NULL (every comparison on it is false); a present value must
coerce to an integer or the whole query errors at execution. -/
def coerceInt : Option JVal → Except String (Option ℤ)
  | none => .ok none
  | some (.jint n) => .ok (some n)
  | some v =>
      match pgParseInt (astext v) with
      | some n => .ok (some n)
      | none => .error ("invalid input syntax for type integer: " ++ astext v)

/-- Integer coercion of a `Condition` operand bound as a query parameter. -/
def asIntValue : JVal → Except String ℤ
  | .jint n => .ok n
  | .jstr s =>
      match pgParseInt s with
      | some n => .ok n
      | none => .error ("invalid input syntax for type integer: " ++ s)
  | _ => .error "operator does not exist: integer = boolean"

/-- `query.filter(cast_expr <cmp> ...)` over the candidate records: a record
whose field is NULL compares false; a record whose field does not coerce makes
the query error. -/
def intFilter (recs : List Metadata) (f : String) (p : ℤ → Bool) :
    Except String (List Metadata) :=
  match recs with
  | [] => .ok []
  | md :: rest => do
      let v ← coerceInt (metaLookup md f)
      let tail ← intFilter rest f p
      match v with
      | some m => if p m then pure (md :: tail) else pure tail
      | none => pure tail

/-- Python `value.lower()` on the condition operand; a non-string operand has
no `lower` attribute. -/
def pyLower : JVal → Except String String
  | .jstr s => .ok s.toLower
  | _ => .error "AttributeError: lower"

/-- One `for condition in metadata_filter['and']` pass of
`DocumentChunkRepository._apply_metadata_filters`, applied to the candidate
record set.  The branch structure is exactly the source's: `list` handles
`contains`/`in_list`, `int` handles
`equals`/`greater_than`/`less_than`/`between`, `str` handles `equals`; any
other declared type (in particular `float` and `bool`) or any other operator
falls through every branch and leaves the query unchanged. -/
def applyCondition (c : Condition) (recs : List Metadata) :
    Except String (List Metadata) :=
  if c.type = "list" then
    if c.op = "contains" then
      .ok (recs.filter fun md => listContains (metaLookup md c.field) c.value)
    else if c.op = "in_list" then
      match pyIter c.value with
      | .ok vs =>
          .ok (vs.foldl
            (fun acc v => acc.filter fun md => listContains (metaLookup md c.field) v)
            recs)
      | .error e => .error e
    else .ok recs
  else if c.type = "int" then
    if c.op = "equals" then do
      let n ← asIntValue c.value
      intFilter recs c.field (fun m => m = n)
    else if c.op = "greater_than" then do
      let n ← asIntValue c.value
      intFilter recs c.field (fun m => n < m)
    else if c.op = "less_than" then do
      let n ← asIntValue c.value
      intFilter recs c.field (fun m => m < n)
    else if c.op = "between" then
      match c.value with
      | .jlist (lo :: hi :: _) => do
          let nlo ← asIntValue lo
          let nhi ← asIntValue hi
          intFilter recs c.field (fun m => nlo ≤ m ∧ m ≤ nhi)
      | .jlist _ => .error "IndexError: list index out of range"
      | _ => .error "TypeError: value is not subscriptable"
    else .ok recs
  else if c.type = "str" then
    if c.op = "equals" then do
      let lv ← pyLower c.value
      .ok (recs.filter fun md =>
        match metaLookup md c.field with
        | some v => (astext v).toLower = lv
        | none => false)
    else .ok recs
  else .ok recs

/-- The conjunction fold over `metadata_filter['and']`. -/
def applyConditions : List Condition → List Metadata → Except String (List Metadata)
  | [], recs => .ok recs
  | c :: rest, recs => do applyConditions rest (← applyCondition c recs)

/-- `DocumentChunkRepository._apply_metadata_filters`: a falsy filter or one
without an `and` key returns the query unchanged (`none` here); otherwise each
condition of the conjunction is applied in order. -/
def _apply_metadata_filters (mf : Option (List Condition)) (recs : List Metadata) :
    Except String (List Metadata) :=
  match mf with
  | none => .ok recs
  | some conds => applyConditions conds recs

end DocChunkRepo

namespace DocChunkRepo

theorem except_bind_ok {e α β : Type} (a : α) (f : α → Except e β) :
    (Except.ok a >>= f) = f a := rfl

theorem except_bind_error {e α β : Type} (err : e) (f : α → Except e β) :
    ((Except.error err : Except e α) >>= f) = Except.error err := rfl

theorem except_pure_eq {e α : Type} (a : α) :
    (pure a : Except e α) = Except.ok a := rfl

theorem intFilter_total (recs : List Metadata) (f : String) (p : ℤ → Bool)
    (h : ∀ md ∈ recs, ∃ r, coerceInt (metaLookup md f) = .ok r) :
    intFilter recs f p = .ok (recs.filter fun md =>
      match coerceInt (metaLookup md f) with
      | .ok (some m) => p m
      | _ => false) := by
  induction recs with
  | nil => simp [intFilter]
  | cons md rest ih =>
      obtain ⟨r, hr⟩ := h md (List.mem_cons_self md rest)
      have htail := ih (fun md' hmd' => h md' (List.mem_cons_of_mem _ hmd'))
      cases r with
      | none =>
          simp [intFilter, hr, htail, List.filter_cons, except_bind_ok, except_pure_eq]
      | some m =>
          by_cases hp : p m <;>
            simp [intFilter, hr, htail, List.filter_cons, hp, except_bind_ok,
              except_pure_eq]

theorem intFilter_fail_fast (recs : List Metadata) (f : String) (p : ℤ → Bool)
    (md : Metadata) (hmem : md ∈ recs)
    (h : ∀ r, coerceInt (metaLookup md f) ≠ .ok r) :
    ∃ e, intFilter recs f p = .error e := by
  induction recs with
  | nil => cases hmem
  | cons md' rest ih =>
      rcases List.mem_cons.mp hmem with heq | hmem'
      · subst heq
        cases hcv : coerceInt (metaLookup md f) with
        | error e => exact ⟨e, by simp [intFilter, hcv, except_bind_error]⟩
        | ok r => exact absurd hcv (h r)
      · cases hcv : coerceInt (metaLookup md' f) with
        | error e => exact ⟨e, by simp [intFilter, hcv, except_bind_error]⟩
        | ok r =>
            obtain ⟨e, he⟩ := ih hmem'
            refine ⟨e, ?_⟩
            cases r with
            | none => simp [intFilter, hcv, he, except_bind_ok, except_bind_error]
            | some m => simp [intFilter, hcv, he, except_bind_ok, except_bind_error]

theorem foldl_filter_all (P : JVal → Metadata → Bool) (vs : List JVal)
    (recs : List Metadata) :
    vs.foldl (fun acc v => acc.filter fun md => P v md) recs =
      recs.filter fun md => vs.all fun v => P v md := by
  induction vs generalizing recs with
  | nil => simp
  | cons v rest ih =>
      rw [List.foldl_cons, ih, List.filter_filter]
      simp [List.all_cons, Bool.and_comm]

/-- C4 counterexample: the evaluator has no branch for declared types `float`
and `bool`, and unknown operators of handled types fall through, so such
conditions are silently skipped — the call succeeds and the non-matching
record is silently kept, instead of failing fast. -/
theorem apply_metadata_filters_c4_counterexample :
    _apply_metadata_filters (some [⟨"f", "bool", "equals", JVal.jbool false⟩])
        [[("f", JVal.jbool true)]] = .ok [[("f", JVal.jbool true)]]
    ∧ _apply_metadata_filters (some [⟨"g", "float", "less_than", JVal.jint 0⟩])
        [[("g", JVal.jint 5)]] = .ok [[("g", JVal.jint 5)]]
    ∧ _apply_metadata_filters (some [⟨"s", "str", "greater_than", JVal.jstr "x"⟩])
        [[("s", JVal.jstr "a")]] = .ok [[("s", JVal.jstr "a")]] :=
  ⟨rfl, rfl, rfl⟩

/-- C4 amended: filter evaluation applies `int` conditions
(`equals`/`greater_than`/`less_than`/inclusive `between`) and case-insensitive
`str` `equals` conditions as type-coerced comparisons, failing the whole call
when an `int`-typed field value cannot be coerced; `list` conditions
(`contains`/`in_list`) are applied not as membership but as a substring test
of the quoted operand text against the field's JSON text — which silently
matches nothing on an array of numbers (though it does match a quote-free
string element), and `in_list` with a string operand silently iterates its
characters (only a non-iterable operand fails); and a Condition whose declared
type is `float` or `bool`, or whose operator is not implemented for its
declared type, is silently skipped, leaving the candidate set unchanged rather
than failing fast. -/
theorem apply_metadata_filters_c4_amended :
    (∀ (c : Condition) (recs : List Metadata),
      c.type ≠ "list" → c.type ≠ "int" → c.type ≠ "str" →
      applyCondition c recs = .ok recs)
    ∧ (∀ (c : Condition) (recs : List Metadata),
      c.type = "list" → c.op ≠ "contains" → c.op ≠ "in_list" →
      applyCondition c recs = .ok recs)
    ∧ (∀ (c : Condition) (recs : List Metadata),
      c.type = "int" → c.op ≠ "equals" → c.op ≠ "greater_than" →
      c.op ≠ "less_than" → c.op ≠ "between" →
      applyCondition c recs = .ok recs)
    ∧ (∀ (c : Condition) (recs : List Metadata),
      c.type = "str" → c.op ≠ "equals" →
      applyCondition c recs = .ok recs)
    ∧ (∀ (f : String) (v : JVal) (recs : List Metadata),
      applyCondition ⟨f, "list", "contains", v⟩ recs =
        .ok (recs.filter fun md => listContains (metaLookup md f) v))
    ∧ (∀ (f : String) (val : JVal) (vs : List JVal) (recs : List Metadata),
      pyIter val = .ok vs →
      applyCondition ⟨f, "list", "in_list", val⟩ recs =
        .ok (recs.filter fun md => vs.all fun v => listContains (metaLookup md f) v))
    ∧ (∀ (f s : String) (recs : List Metadata),
      applyCondition ⟨f, "list", "in_list", .jstr s⟩ recs =
        .ok (recs.filter fun md =>
          (s.data.map fun ch => JVal.jstr (String.singleton ch)).all
            fun v => listContains (metaLookup md f) v))
    ∧ (∀ (f : String) (n : ℤ) (recs : List Metadata),
      applyCondition ⟨f, "list", "in_list", .jint n⟩ recs =
        .error "TypeError: value is not iterable")
    ∧ listContains (some (.jlist [.jint 5, .jint 3])) (.jint 5) = false
    ∧ listContains (some (.jlist [.jstr "a", .jstr "b"])) (.jstr "a") = true
    ∧ (∀ (f : String) (n : ℤ) (recs : List Metadata),
      applyCondition ⟨f, "int", "equals", .jint n⟩ recs =
        intFilter recs f (fun m => m = n))
    ∧ (∀ (f : String) (lo hi : ℤ) (recs : List Metadata),
      applyCondition ⟨f, "int", "between", .jlist [.jint lo, .jint hi]⟩ recs =
        intFilter recs f (fun m => lo ≤ m ∧ m ≤ hi))
    ∧ (∀ (f : String) (s : String) (recs : List Metadata),
      applyCondition ⟨f, "str", "equals", .jstr s⟩ recs =
        .ok (recs.filter fun md =>
          match metaLookup md f with
          | some v => (astext v).toLower = s.toLower
          | none => false))
    ∧ (∀ (recs : List Metadata) (f : String) (p : ℤ → Bool),
      (∀ md ∈ recs, ∃ r, coerceInt (metaLookup md f) = .ok r) →
      intFilter recs f p = .ok (recs.filter fun md =>
        match coerceInt (metaLookup md f) with
        | .ok (some m) => p m
        | _ => false))
    ∧ (∀ (recs : List Metadata) (f : String) (p : ℤ → Bool) (md : Metadata),
      md ∈ recs → (∀ r, coerceInt (metaLookup md f) ≠ .ok r) →
      ∃ e, intFilter recs f p = .error e) := by
  have h1 : ¬ ("in_list" : String) = "contains" := by decide
  refine ⟨?_, ?_, ?_, ?_, ?_, ?_, ?_, ?_, by decide, by decide, ?_, ?_, ?_,
    intFilter_total, intFilter_fail_fast⟩
  · intro c recs hA hB hC
    simp [applyCondition, hA, hB, hC]
  · intro c recs hA hB hC
    simp [applyCondition, hA, hB, hC]
  · intro c recs hA hB hC hD hE
    simp [applyCondition, hA, hB, hC, hD, hE]
  · intro c recs hA hB
    simp [applyCondition, hA, hB]
  · intro f v recs
    rfl
  · intro f val vs recs h
    simp [applyCondition, h1, h, foldl_filter_all]
  · intro f str recs
    simp [applyCondition, h1, pyIter, foldl_filter_all]
  · intro f n recs
    rfl
  · intro f n recs
    rfl
  · intro f lo hi recs
    rfl
  · intro f str recs
    rfl

/-- Concrete instantiation of `apply_metadata_filters_c4_amended`: a
`float`-typed condition leaves a concrete one-record candidate set untouched. -/
theorem apply_metadata_filters_c4_amended_witness :
    applyCondition ⟨"g", "float", "equals", JVal.jint 0⟩ [[("g", JVal.jint 1)]] =
      .ok [[("g", JVal.jint 1)]] :=
  apply_metadata_filters_c4_amended.1 ⟨"g", "float", "equals", JVal.jint 0⟩
    [[("g", JVal.jint 1)]] (by decide) (by decide) (by decide)

end DocChunkRepo

namespace OrchService

/-- Python positional-argument binding for a method whose positional parameter
names (excluding `self`) are `params` and which declares no defaults: passing
more arguments than parameters raises `TypeError` (the message counts `self`,
as CPython does). -/
def bindPositional (params : List String) (nargs : ℕ) : Except String Unit :=
  if params.length < nargs then
    .error ("TypeError: __init__() takes " ++ toString (params.length + 1) ++
      " positional arguments but " ++ toString (nargs + 1) ++ " were given")
  else if nargs < params.length then
    .error "TypeError: __init__() missing required positional arguments"
  else .ok ()

/-- `TextToSQLAgent.__init__(self, sqlite_service, llm_service)`: two
positional parameters besides `self`. -/
def TextToSQLAgent_init_params : List String := ["sqlite_service", "llm_service"]

/-- `ResearchAgent.__init__(self, llm_service, search_service, user_id)`. -/
def ResearchAgent_init_params : List String := ["llm_service", "search_service", "user_id"]

/-- Outcome dictionary of `OrchestratorAgent.query` as consumed by the
service. -/
structure OrchResult where
  final_answer : String
  agents_called : List String
  mode_used : String

/-- External collaborators of `OrchestratorService.execute_query`: the
conversation repository (total lookups and writes) and the orchestrator run
itself. -/
structure ExecEnv where
  resolve_conversation : Option String → String
  load_history : String → List (String × String)
  orchestrator_query : String → List (String × String) → ℕ → OrchResult

/-- `OrchestratorService.execute_query`: resolve or create the conversation,
save the user message, load the history, construct the sub-agents
(`TextToSQLAgent` is called with the 4 positional arguments
`sqlite_service, llm_service, preferences_service, user_id`), then run the
orchestrator and save the assistant message. -/
def execute_query (env : ExecEnv) (query : String)
    (conversation_id : Option String) (max_iterations : ℕ) :
    Except String OrchResult := do
  let conv := env.resolve_conversation conversation_id
  let history := env.load_history conv
  let _ ← bindPositional TextToSQLAgent_init_params 4
  let _ ← bindPositional ResearchAgent_init_params 3
  pure (env.orchestrator_query query history max_iterations)

/-- C2: for every collaborator behaviour and every request,
`OrchestratorService.execute_query` fails with a `TypeError` raised while
constructing `TextToSQLAgent` with 4 positional arguments against a 2-parameter
`__init__`, and the result never depends on the orchestrator (the supervisor
loop is never entered), so no orchestrated query completes through this entry
point. -/
theorem execute_query_always_type_error :
    TextToSQLAgent_init_params.length = 2
    ∧ (∀ (env : ExecEnv) (query : String) (conversation_id : Option String)
        (max_iterations : ℕ),
        execute_query env query conversation_id max_iterations =
          .error "TypeError: __init__() takes 3 positional arguments but 5 were given")
    ∧ (∀ (env : ExecEnv)
        (f g : String → List (String × String) → ℕ → OrchResult)
        (query : String) (conversation_id : Option String) (max_iterations : ℕ),
        execute_query { env with orchestrator_query := f } query conversation_id
            max_iterations =
          execute_query { env with orchestrator_query := g } query conversation_id
            max_iterations) := by
  refine ⟨rfl, fun env query cid mi => rfl, fun env f g query cid mi => rfl⟩

end OrchService

namespace SqliteSvc

/-- Python substring test `pat in s` on character lists. -/
def containsSeq (p : List Char) : List Char → Bool
  | [] => p.isPrefixOf []
  | c :: t => p.isPrefixOf (c :: t) || containsSeq p t

/-- Python substring test `pat in s`.  (Character-list implementation: the
built-in substring functions work on byte positions and do not reduce in the
kernel.) -/
def strContains (s pat : String) : Bool := containsSeq pat.data s.data

/-- Python `str.strip()`. -/
def pyStrip (s : String) : String :=
  ⟨((s.data.dropWhile Char.isWhitespace).reverse.dropWhile Char.isWhitespace).reverse⟩

/-- Python `str.upper()`. -/
def pyUpper (s : String) : String := ⟨s.data.map Char.toUpper⟩

/-- Python `str.startswith(pre)`. -/
def pyStartsWith (s pre : String) : Bool := pre.data.isPrefixOf s.data

def wordsAux : List Char → List Char → List (List Char)
  | [], acc => if acc.isEmpty then [] else [acc.reverse]
  | c :: cs, acc =>
      if c.isWhitespace then
        if acc.isEmpty then wordsAux cs [] else acc.reverse :: wordsAux cs []
      else wordsAux cs (c :: acc)

/-- Python `str.split()` with no separator: whitespace runs, empties dropped. -/
def pySplitWs (s : String) : List String := (wordsAux s.data []).map (fun cs => ⟨cs⟩)

/-- `' '.join(query.split())`: collapse whitespace runs. -/
def normalize_ws (query : String) : String := " ".intercalate (pySplitWs query)

/-- The keywords `SQLiteService._is_safe_query` always blocks. -/
def always_blocked : List String :=
  ["DROP", "ALTER", "CREATE", "EXEC", "EXECUTE", "ATTACH", "DETACH"]

/-- `SQLiteService._is_safe_query`: detect the leading operation keyword,
require it to be in `allowed_operations`, reject queries containing an
always-blocked keyword, multiple statements, or comments. -/
def _is_safe_query (query : String) (allowed_operations : List String) : Bool :=
  let cleaned := pyUpper (pyStrip query)
  let query_type : Option String :=
    if pyStartsWith cleaned "SELECT" then some "SELECT"
    else if pyStartsWith cleaned "INSERT" then some "INSERT"
    else if pyStartsWith cleaned "UPDATE" then some "UPDATE"
    else if pyStartsWith cleaned "DELETE" then some "DELETE"
    else none
  match query_type with
  | none => false
  | some qt =>
      if ¬ allowed_operations.contains qt then false
      else if always_blocked.any (fun kw => strContains cleaned kw) then false
      else if (⟨query.data.dropLast⟩ : String).data.contains ';' then false
      else if strContains query "--" || strContains query "/*" then false
      else true

/-- Result rows of one SQL execution. -/
structure QueryResult where
  columns : List String
  rows : List (List String)
  row_count : ℕ

instance : BEq QueryResult :=
  ⟨fun a b => a.columns == b.columns && a.rows == b.rows && a.row_count == b.row_count⟩

/-- `SQLiteService.execute_query`: 404 when no database blob exists, then the
safety/permission validation (on the whitespace-normalized query), then the
actual cursor execution (`runner`, the SQLite collaborator). -/
def SQLiteService_execute_query (db_exists : Bool) (allowed_operations : List String)
    (runner : String → Except String QueryResult) (query : String) :
    Except String QueryResult :=
  if ¬ db_exists then
    .error "No database found. Please upload a database first."
  else
    let q := normalize_ws query
    if _is_safe_query q allowed_operations then runner q
    else
      .error ("Query not allowed. Permitted operations: " ++
        ", ".intercalate allowed_operations)

end SqliteSvc

namespace SqlAgent

open SqliteSvc

/-- `TextToSQLAgent._detect_operation`. -/
def _detect_operation (sql : String) : String :=
  let sql_upper := SqliteSvc.pyUpper (SqliteSvc.pyStrip sql)
  if SqliteSvc.pyStartsWith sql_upper "SELECT" then "SELECT"
  else if SqliteSvc.pyStartsWith sql_upper "INSERT" then "INSERT"
  else if SqliteSvc.pyStartsWith sql_upper "UPDATE" then "UPDATE"
  else if SqliteSvc.pyStartsWith sql_upper "DELETE" then "DELETE"
  else "UNKNOWN"

/-- One tool call requested by the model inside the SQL agent's loop; `args`
holds the `sql` argument (also passed verbatim to the query checker). -/
structure SqlToolCall where
  name : String
  id : String
  args_sql : String

/-- A structured observation, serialized to JSON text in the source. -/
inductive Obs
  | errorObs (msg : String)
  | resultObs (r : QueryResult)
  | checkerObs (s : String)

/-- One entry of the append-only step trail. -/
structure Step where
  step_number : ℕ
  action : String
  action_input : String
  observation : Obs

/-- One response of the tool-bound language model. -/
inductive SqlTurn
  | answer (content : String)
  | toolCalls (calls : List SqlToolCall)

/-- Conversation messages of the SQL agent's local loop. -/
inductive SqlMsg
  | human (content : String)
  | assistant (turn : SqlTurn)
  | toolMsg (observation : Obs) (tool_call_id : String)

/-- Mutable loop state of `TextToSQLAgent.query`. -/
structure SqlState where
  sql_count : ℕ
  sql_queries : List String
  results : List QueryResult
  messages : List SqlMsg
  steps : List Step

/-- External collaborators of the SQL agent: the permission record, the cached
database, the SQLite cursor and the LangChain query checker. -/
structure SqlEnv where
  allowed_operations : List String
  db_exists : Bool
  runner : String → Except String QueryResult
  checker : String → String
  synth : String → List QueryResult → String

/-- Processing of one tool call inside `TextToSQLAgent.query`'s loop body:
the permission check (leading-keyword detection against the allow-list), then
the per-request execution-count ceiling, then execution through
`SQLiteService.execute_query` with exceptions captured as error observations;
every branch appends one tool message and one step and keeps looping. -/
def processToolCall (env : SqlEnv) (max_sql_queries : ℕ) (st : SqlState)
    (tc : SqlToolCall) : SqlState :=
  if tc.name = "sql_db_query_checker" then
    let obs := Obs.checkerObs (env.checker tc.args_sql)
    { st with
      messages := st.messages ++ [.toolMsg obs tc.id]
      steps := st.steps ++ [⟨st.steps.length + 1, tc.name, tc.args_sql, obs⟩] }
  else if tc.name = "execute_sql_query" then
    let sql := tc.args_sql
    let operation := _detect_operation sql
    if ¬ env.allowed_operations.contains operation then
      let obs := Obs.errorObs (operation ++ " operation not allowed")
      { st with
        messages := st.messages ++ [.toolMsg obs tc.id]
        steps := st.steps ++ [⟨st.steps.length + 1, tc.name, tc.args_sql, obs⟩] }
    else if max_sql_queries ≤ st.sql_count then
      let obs := Obs.errorObs
        ("Maximum SQL query limit (" ++ toString max_sql_queries ++ ") reached")
      { st with
        messages := st.messages ++ [.toolMsg obs tc.id]
        steps := st.steps ++ [⟨st.steps.length + 1, tc.name, tc.args_sql, obs⟩] }
    else
      match SQLiteService_execute_query env.db_exists env.allowed_operations
          env.runner sql with
      | .ok r =>
          let obs := Obs.resultObs r
          { sql_count := st.sql_count + 1
            sql_queries := st.sql_queries ++ [sql]
            results := st.results ++ [r]
            messages := st.messages ++ [.toolMsg obs tc.id]
            steps := st.steps ++ [⟨st.steps.length + 1, tc.name, tc.args_sql, obs⟩] }
      | .error e =>
          let obs := Obs.errorObs e
          { st with
            messages := st.messages ++ [.toolMsg obs tc.id]
            steps := st.steps ++ [⟨st.steps.length + 1, tc.name, tc.args_sql, obs⟩] }
  else
    let obs := Obs.errorObs ("Unknown tool: " ++ tc.name)
    { st with
      messages := st.messages ++ [.toolMsg obs tc.id]
      steps := st.steps ++ [⟨st.steps.length + 1, tc.name, tc.args_sql, obs⟩] }

/-- The `while iteration < max_iterations` loop of `TextToSQLAgent.query`,
returning the state after the loop, the model's final text if it stopped
requesting tools, and the number of model invocations consumed. -/
def sqlLoop (llm : List SqlMsg → SqlTurn) (env : SqlEnv) (max_sql_queries : ℕ) :
    ℕ → SqlState → SqlState × Option String × ℕ
  | 0, st => (st, none, 0)
  | n + 1, st =>
      match llm st.messages with
      | .answer content => (st, some content, 1)
      | .toolCalls calls =>
          let st1 := { st with messages := st.messages ++ [.assistant (.toolCalls calls)] }
          let st2 := calls.foldl (processToolCall env max_sql_queries) st1
          let (st3, ans, used) := sqlLoop llm env max_sql_queries n st2
          (st3, ans, used + 1)

/-- Python falsiness of an optional string (`None` or `""`). -/
def pyFalsy : Option String → Bool
  | none => true
  | some s => s = ""

/-- `TextToSQLAgent.query`: run the loop (hard cap of 5 model turns), then
synthesize a natural-language answer when queries executed and the model left
no answer, with the iteration-limit literal as the last resort. -/
def TextToSQLAgent_query (llm : List SqlMsg → SqlTurn) (env : SqlEnv)
    (user_query : String) (max_sql_queries : ℕ) :
    SqlState × String × ℕ :=
  let st0 : SqlState :=
    { sql_count := 0, sql_queries := [], results := [],
      messages := [.human user_query], steps := [] }
  let (st, ansOpt, used) := sqlLoop llm env max_sql_queries 5 st0
  let fa1 : Option String :=
    if 0 < st.sql_count ∧ pyFalsy ansOpt then some (env.synth user_query st.results)
    else ansOpt
  let final_answer :=
    match fa1 with
    | some a => if a = "" then "Could not generate answer within iteration limit" else a
    | none => "Could not generate answer within iteration limit"
  (st, final_answer, used)

end SqlAgent

namespace SqlAgent

/-- Demo collaborators: allow-list `["SELECT"]`, a cached database, a cursor
returning one row. -/
def demoEnv : SqlEnv :=
  { allowed_operations := ["SELECT"], db_exists := true,
    runner := fun _ => .ok ⟨["id"], [["1"]], 1⟩,
    checker := fun s => s, synth := fun _ _ => "synthesized" }

/-- Scripted model: first turn requests a `DELETE` execution, second turn a
`SELECT`, third turn answers. -/
def demoScript (msgs : List SqlMsg) : SqlTurn :=
  let k := (msgs.filter fun m =>
    match m with | .assistant _ => true | _ => false).length
  if k = 0 then .toolCalls [⟨"execute_sql_query", "1", "DELETE FROM movies WHERE id = 1"⟩]
  else if k = 1 then .toolCalls [⟨"execute_sql_query", "2", "SELECT * FROM movies"⟩]
  else .answer "done"

/-- C7: an execution request whose detected leading operation is not in the
allow-list, or which arrives after the per-request execution ceiling, produces
an error observation (appended to the step trail; the execution counter and
query list are untouched) and the loop keeps running; statements containing an
always-blocked keyword are rejected by `_is_safe_query` regardless of the
allow-list; concretely, a `DELETE` under allow-list `["SELECT"]` yields the
`"DELETE operation not allowed"` observation and the loop continues into a
second iteration that successfully executes a `SELECT` and a third that
answers. -/
theorem sql_agent_guard_spec :
    (∀ (env : SqlEnv) (mx : ℕ) (st : SqlState) (idv sql : String),
      env.allowed_operations.contains (_detect_operation sql) = false →
      processToolCall env mx st ⟨"execute_sql_query", idv, sql⟩ =
        { st with
          messages := st.messages ++
            [.toolMsg (.errorObs (_detect_operation sql ++ " operation not allowed")) idv]
          steps := st.steps ++
            [⟨st.steps.length + 1, "execute_sql_query", sql,
              .errorObs (_detect_operation sql ++ " operation not allowed")⟩] })
    ∧ (∀ (env : SqlEnv) (mx : ℕ) (st : SqlState) (idv sql : String),
      env.allowed_operations.contains (_detect_operation sql) = true →
      mx ≤ st.sql_count →
      processToolCall env mx st ⟨"execute_sql_query", idv, sql⟩ =
        { st with
          messages := st.messages ++
            [.toolMsg (.errorObs ("Maximum SQL query limit (" ++ toString mx ++ ") reached")) idv]
          steps := st.steps ++
            [⟨st.steps.length + 1, "execute_sql_query", sql,
              .errorObs ("Maximum SQL query limit (" ++ toString mx ++ ") reached")⟩] })
    ∧ (∀ (query : String) (allowed : List String) (kw : String),
      kw ∈ SqliteSvc.always_blocked →
      SqliteSvc.strContains (SqliteSvc.pyUpper (SqliteSvc.pyStrip query)) kw = true →
      SqliteSvc._is_safe_query query allowed = false)
    ∧ ((TextToSQLAgent_query demoScript demoEnv "list movies" 3).1.steps.map
        (fun s => s.observation) =
          [.errorObs "DELETE operation not allowed",
           .resultObs ⟨["id"], [["1"]], 1⟩]
      ∧ (TextToSQLAgent_query demoScript demoEnv "list movies" 3).1.sql_queries =
          ["SELECT * FROM movies"]
      ∧ (TextToSQLAgent_query demoScript demoEnv "list movies" 3).1.sql_count = 1
      ∧ (TextToSQLAgent_query demoScript demoEnv "list movies" 3).2.1 = "done"
      ∧ (TextToSQLAgent_query demoScript demoEnv "list movies" 3).2.2 = 3) := by
  have hne : ¬ ("execute_sql_query" : String) = "sql_db_query_checker" := by decide
  refine ⟨?_, ?_, ?_, ?_⟩
  · intro env mx st idv sql h
    have hcond : ¬ (env.allowed_operations.contains (_detect_operation sql) = true) := by
      rw [h]
      exact Bool.false_ne_true
    simp only [processToolCall, if_true]
    rw [if_pos hcond, if_neg hne]
  · intro env mx st idv sql h hcnt
    have hcond : ¬ ¬ (env.allowed_operations.contains (_detect_operation sql) = true) := by
      rw [h]
      exact not_not_intro rfl
    simp only [processToolCall, if_true]
    rw [if_neg hcond, if_pos hcnt, if_neg hne]
  · intro query allowed kw hkw hc
    have hany : SqliteSvc.always_blocked.any
        (fun kw2 => SqliteSvc.strContains (SqliteSvc.pyUpper (SqliteSvc.pyStrip query)) kw2) = true :=
      List.any_eq_true.mpr ⟨kw, hkw, hc⟩
    simp only [SqliteSvc._is_safe_query]
    split
    · rfl
    · split
      · rfl
      · simp [hany]
  · refine ⟨?_, ?_, ?_, ?_, ?_⟩ <;> rfl

/-- Concrete instantiation of `sql_agent_guard_spec`: the disallowed-operation
branch at a `DELETE` statement under allow-list `["SELECT"]`, starting from the
empty loop state. -/
theorem sql_agent_guard_spec_witness :
    processToolCall demoEnv 3
        ⟨0, [], [], [], []⟩ ⟨"execute_sql_query", "1", "DELETE FROM t"⟩ =
      { sql_count := 0, sql_queries := [], results := [],
        messages := [.toolMsg (.errorObs "DELETE operation not allowed") "1"],
        steps := [⟨1, "execute_sql_query", "DELETE FROM t",
          .errorObs "DELETE operation not allowed"⟩] } := by
  have h := sql_agent_guard_spec.1 demoEnv 3 ⟨0, [], [], [], []⟩ "1" "DELETE FROM t"
    (by decide)
  simpa using h

end SqlAgent

namespace RagAgentM

/-- One vector/text record as returned to the agent. -/
structure RetrievedChunk where
  id : String
  score : ℚ
  llm_text : String
  metadata : DocChunkRepo.Metadata

/-- Python `round(x, 4)`.  (Ties round half-to-even in Python; no property
proved here depends on tie behaviour.) -/
def pyRound4 (q : ℚ) : ℚ := (round (q * 10000) : ℤ) / 10000

/-- A stored chunk row (`llm_text` and `chunk_metadata` are nullable). -/
structure Chunk where
  id : String
  llm_text : Option String
  chunk_metadata : Option DocChunkRepo.Metadata

/-- Arguments of the `retrieve_records` tool after the `args.get` defaults
(`top_k=5`, `mode="semantic"`, absent filter and seed are `None`). -/
structure RetrieveArgs where
  query : String
  top_k : ℕ
  mode : String
  metadata_filter : Option (List DocChunkRepo.Condition)
  seed : Option (Sum String (List DocChunkRepo.Condition) ⊕ Unit)

/-- External collaborators of the RAG agent: embeddings, the chunk repository
and the synthesis model call. -/
structure RagEnv where
  create_embedding : String → Except String (List ℚ)
  semantic_search : List ℚ → ℕ → Option (List DocChunkRepo.Condition) →
    Except String (List (Chunk × ℚ))
  keyword_search : String → ℕ → Option (List DocChunkRepo.Condition) →
    Except String (List (Chunk × ℚ))
  hybrid_search : List ℚ → String → ℕ → Option (List DocChunkRepo.Condition) →
    Except String (List (Chunk × ℚ))
  find_neighbors : Chunk → ℕ → Option (List DocChunkRepo.Condition) →
    Except String (List (Chunk × ℚ))
  get_by_id : String → Option Chunk
  get_by_metadata_filter : List DocChunkRepo.Condition →
    Except String (Option Chunk)
  synth : String → List RetrievedChunk → String

/-- `RetrievedChunk` construction from repository results (score rounded to 4
places, null text and metadata defaulted). -/
def mkChunks (results : List (Chunk × ℚ)) : List RetrievedChunk :=
  results.map fun p =>
    { id := p.1.id, score := pyRound4 p.2,
      llm_text := p.1.llm_text.getD "", metadata := p.1.chunk_metadata.getD [] }

/-- The body of `_execute_retrieve_records`'s `try` block: `.inl results` on a
completed search, `.inr msg` for the early-returned JSON errors (bad seed,
missing seed, bad mode), `.error` for a raised exception. -/
def retrieveBody (env : RagEnv) (args : RetrieveArgs) :
    Except String (Sum (List (Chunk × ℚ)) String) :=
  if args.mode = "semantic" then do
    let emb ← env.create_embedding args.query
    let r ← env.semantic_search emb args.top_k args.metadata_filter
    pure (.inl r)
  else if args.mode = "keyword" then do
    let r ← env.keyword_search args.query args.top_k args.metadata_filter
    pure (.inl r)
  else if args.mode = "hybrid" then do
    let emb ← env.create_embedding args.query
    let r ← env.hybrid_search emb args.query args.top_k args.metadata_filter
    pure (.inl r)
  else if args.mode = "neighbors" then
    match args.seed with
    | some (.inl (.inl i)) =>
        (match env.get_by_id i with
         | some c => do
             let r ← env.find_neighbors c args.top_k args.metadata_filter
             pure (.inl r)
         | none => pure (.inr "Seed record not found"))
    | some (.inl (.inr mf)) => do
        (match ← env.get_by_metadata_filter mf with
         | some c => do
             let r ← env.find_neighbors c args.top_k args.metadata_filter
             pure (.inl r)
         | none => pure (.inr "Seed record not found"))
    | some (.inr _) =>
        pure (.inr "Invalid seed format. Use metadata_filter format or \x7b'id': 'chunk-uuid'\x7d")
    | none => pure (.inr "Seed record not found")
  else pure (.inr ("Invalid mode: " ++ args.mode))

/-- Mutable per-query fields of the agent that the tools assign. -/
structure RagState where
  retrieved_chunks : List RetrievedChunk
  mode_used : String
  filters_applied : Bool

/-- A structured tool observation (JSON text in the source). -/
inductive RagObs
  | errorObs (msg : String)
  | resultsObs (results : List RetrievedChunk) (mode : String) (filters : Bool)
  | recordObs (llm_text : String) (metadata : DocChunkRepo.Metadata)

/-- `RAGAgent._execute_retrieve_records`: `mode_used` and `filters_applied`
are assigned before the `try` block (so they are set even when the call
fails); a completed search replaces `retrieved_chunks` wholesale with the new
result list; every failure path leaves `retrieved_chunks` untouched and
produces an error observation. -/
def _execute_retrieve_records (env : RagEnv) (st : RagState) (args : RetrieveArgs) :
    RagState × RagObs :=
  let st1 := { st with mode_used := args.mode,
                       filters_applied := args.metadata_filter.isSome }
  match retrieveBody env args with
  | .ok (.inl results) =>
      ({ st1 with retrieved_chunks := mkChunks results },
        .resultsObs (mkChunks results) args.mode st1.filters_applied)
  | .ok (.inr msg) => (st1, .errorObs msg)
  | .error e => (st1, .errorObs e)

/-- `RAGAgent._execute_get_record`. -/
def _execute_get_record (env : RagEnv) (st : RagState)
    (mf : Option (List DocChunkRepo.Condition)) : RagState × RagObs :=
  match mf with
  | none => (st, .errorObs "metadata_filter is required")
  | some mf' =>
      match env.get_by_metadata_filter mf' with
      | .error e => (st, .errorObs e)
      | .ok none => (st, .errorObs "Record not found")
      | .ok (some c) =>
          let retrieved : RetrievedChunk :=
            { id := c.id, score := 1, llm_text := c.llm_text.getD "",
              metadata := c.chunk_metadata.getD [] }
          ({ st with retrieved_chunks := [retrieved], mode_used := "direct_lookup" },
            .recordObs retrieved.llm_text retrieved.metadata)

/-- Arguments carried by one tool call of the RAG agent. -/
inductive RagArgs
  | retrieve (a : RetrieveArgs)
  | getRecord (mf : Option (List DocChunkRepo.Condition))
  | other

structure RagToolCall where
  name : String
  id : String
  args : RagArgs

/-- `args.get` extraction with the source's defaults for a `retrieve_records`
call. -/
def asRetrieveArgs : RagArgs → RetrieveArgs
  | .retrieve a => a
  | _ => ⟨"", 5, "semantic", none, none⟩

def asGetArgs : RagArgs → Option (List DocChunkRepo.Condition)
  | .getRecord mf => mf
  | _ => none

inductive RagTurn
  | answer (content : String)
  | toolCalls (calls : List RagToolCall)

inductive RagMsg
  | sysMsg (content : String)
  | human (content : String)
  | assistant (turn : RagTurn)
  | toolMsg (obs : RagObs) (tool_call_id : String)

structure RagStep where
  step_number : ℕ
  action : String
  action_input : RagArgs
  observation : RagObs

/-- Dispatch of one tool call inside the loop body (sequential within the
turn), appending the tool message and the audit step. -/
def processRagCall (env : RagEnv)
    (acc : RagState × List RagMsg × List RagStep) (tc : RagToolCall) :
    RagState × List RagMsg × List RagStep :=
  let st := acc.1
  let msgs := acc.2.1
  let steps := acc.2.2
  let r : RagState × RagObs :=
    if tc.name = "retrieve_records" then
      _execute_retrieve_records env st (asRetrieveArgs tc.args)
    else if tc.name = "get_record" then
      _execute_get_record env st (asGetArgs tc.args)
    else (st, .errorObs ("Unknown tool: " ++ tc.name))
  (r.1, msgs ++ [.toolMsg r.2 tc.id],
    steps ++ [⟨steps.length + 1, tc.name, tc.args, r.2⟩])

/-- The `while iteration < max_iterations` retry loop of `RAGAgent.query`:
stop with the model's text when it requests no tools; otherwise run every
requested tool sequentially and stop retrying as soon as the accumulator is
non-empty.  Returns the final accumulator, the model's direct answer if any,
and the number of tool-model invocations consumed. -/
def ragLoop (llm : List RagMsg → RagTurn) (env : RagEnv) :
    ℕ → RagState × List RagMsg × List RagStep →
    (RagState × List RagMsg × List RagStep) × Option String × ℕ
  | 0, acc => (acc, none, 0)
  | n + 1, acc =>
      match llm acc.2.1 with
      | .answer content => (acc, some content, 1)
      | .toolCalls calls =>
          let acc1 := (acc.1, acc.2.1 ++ [.assistant (.toolCalls calls)], acc.2.2)
          let acc2 := calls.foldl (processRagCall env) acc1
          if acc2.1.retrieved_chunks.isEmpty then
            let r := ragLoop llm env n acc2
            (r.1, r.2.1, r.2.2 + 1)
          else (acc2, none, 1)

structure RAGResponse where
  query : String
  final_answer : String
  chunks : List RetrievedChunk
  mode_used : String
  filters_applied : Bool
  steps : List RagStep

/-- `RAGAgent.query` (iteration cap is the literal 3 of the source): after the
loop, a non-empty accumulator triggers exactly one synthesis model call;
an empty accumulator yields the literal no-records answer with no synthesis
call, discarding any direct model text.  Returns the response, the number of
synthesis calls made, and the number of tool-model invocations. -/
def RAGAgent_query (llm : List RagMsg → RagTurn) (env : RagEnv)
    (system_prompt user_query : String) : RAGResponse × ℕ × ℕ :=
  let acc0 : RagState × List RagMsg × List RagStep :=
    (⟨[], "", false⟩, [.sysMsg system_prompt, .human user_query], [])
  let r := ragLoop llm env 3 acc0
  let st := r.1.1
  let steps := r.1.2.2
  if st.retrieved_chunks.isEmpty then
    (⟨user_query,
      "No relevant records found for your query after trying multiple retrieval strategies.",
      st.retrieved_chunks, st.mode_used, st.filters_applied, steps⟩, 0, r.2.2)
  else
    (⟨user_query, env.synth user_query st.retrieved_chunks,
      st.retrieved_chunks, st.mode_used, st.filters_applied, steps⟩, 1, r.2.2)

end RagAgentM

namespace RagAgentM

/-- Collaborators whose every retrieval returns zero records. -/
def failEnv : RagEnv :=
  { create_embedding := fun _ => .ok []
    semantic_search := fun _ _ _ => .ok []
    keyword_search := fun _ _ _ => .ok []
    hybrid_search := fun _ _ _ _ => .ok []
    find_neighbors := fun _ _ _ => .ok []
    get_by_id := fun _ => none
    get_by_metadata_filter := fun _ => .ok none
    synth := fun _ _ => "SYNTH" }

/-- Scripted model that requests a semantic retrieval on every turn. -/
def alwaysRetrieveScript : List RagMsg → RagTurn := fun _ =>
  .toolCalls [⟨"retrieve_records", "1", .retrieve ⟨"q", 5, "semantic", none, none⟩⟩]

/-- C6: whenever the RAG run ends with an empty accumulator it returns the
literal no-records answer and makes zero synthesis calls; the retry loop stops
(consuming exactly the current model invocation) the first time a turn's tool
calls leave the accumulator non-empty; and the concrete agent whose every
retrieval returns zero records consumes exactly 3 model invocations (the
iteration cap), answers with the literal, and never calls the synthesis
model. -/
theorem rag_agent_cap_fallback_spec :
    (∀ (llm : List RagMsg → RagTurn) (env : RagEnv) (sp uq : String),
      (RAGAgent_query llm env sp uq).1.chunks = [] →
      (RAGAgent_query llm env sp uq).1.final_answer =
        "No relevant records found for your query after trying multiple retrieval strategies."
      ∧ (RAGAgent_query llm env sp uq).2.1 = 0)
    ∧ (∀ (llm : List RagMsg → RagTurn) (env : RagEnv) (n : ℕ)
        (acc : RagState × List RagMsg × List RagStep) (calls : List RagToolCall),
      llm acc.2.1 = .toolCalls calls →
      (calls.foldl (processRagCall env)
          (acc.1, acc.2.1 ++ [.assistant (.toolCalls calls)], acc.2.2)).1.retrieved_chunks.isEmpty
        = false →
      ragLoop llm env (n + 1) acc =
        (calls.foldl (processRagCall env)
          (acc.1, acc.2.1 ++ [.assistant (.toolCalls calls)], acc.2.2), none, 1))
    ∧ (RAGAgent_query alwaysRetrieveScript failEnv "sp" "uq").2.2 = 3
    ∧ (RAGAgent_query alwaysRetrieveScript failEnv "sp" "uq").1.final_answer =
        "No relevant records found for your query after trying multiple retrieval strategies."
    ∧ (RAGAgent_query alwaysRetrieveScript failEnv "sp" "uq").2.1 = 0
    ∧ ((RAGAgent_query alwaysRetrieveScript failEnv "sp" "uq").1.steps.length = 3) := by
  refine ⟨?_, ?_, rfl, rfl, rfl, rfl⟩
  · intro llm env sp uq h
    revert h
    simp only [RAGAgent_query]
    cases hmt : (ragLoop llm env 3
        (⟨[], "", false⟩, [.sysMsg sp, .human uq], [])).1.1.retrieved_chunks.isEmpty
    · simp only [if_false, Bool.false_eq_true]
      intro h
      rw [← List.isEmpty_iff, hmt] at h
      cases h
    · simp only [if_true]
      intro _
      exact ⟨trivial, trivial⟩
  · intro llm env n acc calls hllm hfold
    simp [ragLoop, hllm, hfold]

/-- Concrete instantiation of `rag_agent_cap_fallback_spec`: the
zero-record run ends with an empty accumulator, so the literal answer and zero
synthesis calls follow from the theorem itself. -/
theorem rag_agent_cap_fallback_spec_witness :
    (RAGAgent_query alwaysRetrieveScript failEnv "sp" "uq").1.final_answer =
      "No relevant records found for your query after trying multiple retrieval strategies."
    ∧ (RAGAgent_query alwaysRetrieveScript failEnv "sp" "uq").2.1 = 0 :=
  rag_agent_cap_fallback_spec.1 alwaysRetrieveScript failEnv "sp" "uq" rfl

end RagAgentM

namespace RagAgentM

/-- Collaborators whose semantic search finds one record and whose keyword
search finds none. -/
def eraseEnv : RagEnv :=
  { failEnv with
    semantic_search := fun _ _ _ => .ok [(⟨"A", some "textA", some []⟩, 1/2)] }

/-- Scripted model: one assistant turn requesting a semantic retrieval then a
keyword retrieval, answering directly on the next turn. -/
def twoCallScript (msgs : List RagMsg) : RagTurn :=
  let k := (msgs.filter fun m =>
    match m with | .assistant _ => true | _ => false).length
  if k = 0 then
    .toolCalls
      [⟨"retrieve_records", "1", .retrieve ⟨"q", 5, "semantic", none, none⟩⟩,
       ⟨"retrieve_records", "2", .retrieve ⟨"q", 5, "keyword", none, none⟩⟩]
  else .answer "direct"

/-- C10: a completed `retrieve_records` execution overwrites the accumulator,
`mode_used` and `filters_applied` wholesale, with no dependence on the
previous state; concretely, in one assistant turn whose first call retrieves
one record and whose second call retrieves zero, the final response carries
the last call's empty chunk list and `"keyword"` mode (the first call's record
is erased) and hence the no-records answer, even though the first step's
observation shows the record that had been retrieved. -/
theorem retrieve_records_replaces_accumulator_spec :
    (∀ (env : RagEnv) (st : RagState) (args : RetrieveArgs)
        (results : List (Chunk × ℚ)),
      retrieveBody env args = .ok (.inl results) →
      _execute_retrieve_records env st args =
        ({ retrieved_chunks := mkChunks results, mode_used := args.mode,
           filters_applied := args.metadata_filter.isSome },
         .resultsObs (mkChunks results) args.mode args.metadata_filter.isSome))
    ∧ (RAGAgent_query twoCallScript eraseEnv "sp" "uq").1.chunks = []
    ∧ (RAGAgent_query twoCallScript eraseEnv "sp" "uq").1.mode_used = "keyword"
    ∧ (RAGAgent_query twoCallScript eraseEnv "sp" "uq").1.final_answer =
        "No relevant records found for your query after trying multiple retrieval strategies."
    ∧ ((RAGAgent_query twoCallScript eraseEnv "sp" "uq").1.steps.map
        (fun s => s.observation) =
      [.resultsObs [⟨"A", pyRound4 (1/2), "textA", []⟩] "semantic" false,
       .resultsObs [] "keyword" false])
    ∧ (RAGAgent_query twoCallScript eraseEnv "sp" "uq").2.2 = 2 := by
  refine ⟨?_, rfl, rfl, rfl, rfl, rfl⟩
  intro env st args results h
  simp only [_execute_retrieve_records, h]

/-- Concrete instantiation of `retrieve_records_replaces_accumulator_spec`: a
zero-record keyword call erases a previously non-empty accumulator. -/
theorem retrieve_records_replaces_accumulator_spec_witness :
    _execute_retrieve_records eraseEnv
        ⟨[⟨"A", pyRound4 (1/2), "textA", []⟩], "semantic", true⟩
        ⟨"q", 5, "keyword", none, none⟩ =
      ({ retrieved_chunks := [], mode_used := "keyword", filters_applied := false },
       .resultsObs [] "keyword" false) :=
  retrieve_records_replaces_accumulator_spec.1 eraseEnv
    ⟨[⟨"A", pyRound4 (1/2), "textA", []⟩], "semantic", true⟩
    ⟨"q", 5, "keyword", none, none⟩ [] rfl

end RagAgentM

namespace ResearchAgentM

/-- One result row of the Google search collaborator. -/
structure SearchResult where
  title : String
  url : String
  snippet : String

/-- One accumulated, reference-id-tagged reference. -/
structure ResearchReference where
  reference_id : String
  title : String
  url : String
  snippet : String

/-- Output schema of the structured synthesis/citation model call. -/
structure AnswerWithCitations where
  answer : String
  cited_reference_ids : List String

/-- External collaborators of the Research agent: the web search and the one
structured synthesis/citation model call (given the model's own answer if it
produced one, the user query, and the gathered references). -/
structure ResEnv where
  search : String → Except String (List SearchResult)
  synthesize : Option String → String → List ResearchReference → AnswerWithCitations

structure ResToolCall where
  name : String
  id : String
  args_query : String

inductive ResObs
  | errorObs (msg : String)
  | resultsObs (refs : List ResearchReference)

inductive ResTurn
  | answer (content : String)
  | toolCalls (calls : List ResToolCall)

inductive ResMsg
  | human (content : String)
  | assistant (turn : ResTurn)
  | toolMsg (obs : ResObs) (tool_call_id : String)

structure ResStep where
  step_number : ℕ
  action : String
  action_input : String
  observation : ResObs

/-- Mutable per-query fields of the Research agent.  `search_invocations`
instruments the embedding: it counts calls actually issued to the search
collaborator (successful or failed), which the source does not store but the
claim quantifies over. -/
structure ResState where
  search_count : ℕ
  reference_counter : ℕ
  all_references : List ResearchReference
  search_invocations : ℕ

/-- Tag fresh results `ref_{counter+1}`, `ref_{counter+2}`, … in order. -/
def tagRefs (counter : ℕ) (results : List SearchResult) : List ResearchReference :=
  (results.enum.map fun p =>
    { reference_id := "ref_" ++ toString (counter + p.1 + 1),
      title := p.2.title, url := p.2.url, snippet := p.2.snippet })

/-- One `web_search` tool call inside the loop body: the ceiling check, then
the search with exceptions captured as error observations; successful results
are appended to the accumulated references with fresh sequential ids. -/
def processResCall (env : ResEnv) (max_searches : ℕ)
    (acc : ResState × List ResMsg × List ResStep) (tc : ResToolCall) :
    ResState × List ResMsg × List ResStep :=
  let st := acc.1
  let msgs := acc.2.1
  let steps := acc.2.2
  let r : ResState × ResObs :=
    if tc.name = "web_search" then
      if max_searches ≤ st.search_count then
        (st, .errorObs ("Maximum search limit (" ++ toString max_searches ++ ") reached"))
      else
        match env.search tc.args_query with
        | .ok results =>
            let fresh := tagRefs st.reference_counter results
            ({ search_count := st.search_count + 1,
               reference_counter := st.reference_counter + results.length,
               all_references := st.all_references ++ fresh,
               search_invocations := st.search_invocations + 1 },
             .resultsObs fresh)
        | .error e =>
            ({ st with search_invocations := st.search_invocations + 1 }, .errorObs e)
    else (st, .errorObs ("Unknown tool: " ++ tc.name))
  (r.1, msgs ++ [.toolMsg r.2 tc.id],
    steps ++ [⟨steps.length + 1, tc.name, tc.args_query, r.2⟩])

/-- The `while iteration < max_iterations` loop of `ResearchAgent.query`. -/
def resLoop (llm : List ResMsg → ResTurn) (env : ResEnv) (max_searches : ℕ) :
    ℕ → ResState × List ResMsg × List ResStep →
    (ResState × List ResMsg × List ResStep) × Option String × ℕ
  | 0, acc => (acc, none, 0)
  | n + 1, acc =>
      match llm acc.2.1 with
      | .answer content => (acc, some content, 1)
      | .toolCalls calls =>
          let acc1 := (acc.1, acc.2.1 ++ [.assistant (.toolCalls calls)], acc.2.2)
          let acc2 := calls.foldl (processResCall env max_searches) acc1
          let r := resLoop llm env max_searches n acc2
          (r.1, r.2.1, r.2.2 + 1)

/-- Python dict comprehension `{ref.url: ref for ref in refs}`: first
occurrence fixes the position, later occurrences overwrite the value. -/
def urlDedup : List (String × ResearchReference) → String → ResearchReference →
    List (String × ResearchReference)
  | [], k, v => [(k, v)]
  | (k0, v0) :: rest, k, v =>
      if k0 = k then (k0, v) :: rest else (k0, v0) :: urlDedup rest k v

structure ResearchResponse where
  query : String
  final_answer : String
  references : List ResearchReference
  steps : List ResStep

/-- Python falsiness of an optional string. -/
def pyFalsyStr : Option String → Bool
  | none => true
  | some s => s = ""

/-- `ResearchAgent.query` (loop cap is the literal 10 of the source): run the
iterative tool loop; if at least one search executed, make exactly one
structured synthesis/citation call (its answer is used only when the model
left none) and keep the cited references in citation order; with zero searches
no synthesis call is made and the cited-id list stays `None`; an empty or
missing citation list falls back to the url-deduplicated first 10 references.
Returns the response, the number of synthesis calls, and the state after the
loop. -/
def ResearchAgent_query (llm : List ResMsg → ResTurn) (env : ResEnv)
    (user_query : String) (max_searches : ℕ) :
    ResearchResponse × ℕ × ResState × ℕ :=
  let acc0 : ResState × List ResMsg × List ResStep :=
    (⟨0, 0, [], 0⟩, [.human user_query], [])
  let r := resLoop llm env max_searches 10 acc0
  let st := r.1.1
  let steps := r.1.2.2
  let ansOpt := r.2.1
  let synthPart : Option String × Option (List String) × ℕ :=
    if 0 < st.search_count then
      let s := env.synthesize ansOpt user_query st.all_references
      (if pyFalsyStr ansOpt then some s.answer else ansOpt,
        some s.cited_reference_ids, 1)
    else (ansOpt, none, 0)
  let final_answer :=
    match synthPart.1 with
    | some a => if a = "" then "Could not generate answer within iteration limit" else a
    | none => "Could not generate answer within iteration limit"
  let references :=
    match synthPart.2.1 with
    | some cited =>
        if cited.isEmpty then
          ((st.all_references.foldl (fun m ref => urlDedup m ref.url ref) []).map
            Prod.snd).take 10
        else
          cited.filterMap fun cid =>
            (st.all_references.find? fun ref => ref.reference_id = cid)
    | none =>
        ((st.all_references.foldl (fun m ref => urlDedup m ref.url ref) []).map
          Prod.snd).take 10
  (⟨user_query, final_answer, references, steps⟩, synthPart.2.2, st, r.2.2)

end ResearchAgentM

namespace ResearchAgentM

/-- Scripted model that answers immediately without requesting any search. -/
def immediateAnswerScript : List ResMsg → ResTurn := fun _ =>
  .answer "Paris is the capital of France."

/-- Search collaborator returning no rows; synthesis returning a fixed
structure. -/
def emptySearchEnv : ResEnv :=
  { search := fun _ => .ok []
    synthesize := fun _ _ _ => ⟨"SYNTH", []⟩ }

/-- Collaborator for which the query `"bad"` raises and any other query
returns one result row. -/
def mixEnv : ResEnv :=
  { search := fun q => if q = "bad" then .error "boom" else .ok [⟨"T", "U", "S"⟩]
    synthesize := fun _ _ _ => ⟨"SYNTH", []⟩ }

/-- Scripted model: one turn with a failing search then a succeeding search,
answering on the second turn. -/
def mixScript (msgs : List ResMsg) : ResTurn :=
  let k := (msgs.filter fun m =>
    match m with | .assistant _ => true | _ => false).length
  if k = 0 then
    .toolCalls [⟨"web_search", "1", "bad"⟩, ⟨"web_search", "2", "good"⟩]
  else .answer "ans"

/-- Scripted model: one search per turn for two turns, then an answer —
searches spread over successive loop iterations. -/
def twoTurnSearchScript (msgs : List ResMsg) : ResTurn :=
  let k := (msgs.filter fun m =>
    match m with | .assistant _ => true | _ => false).length
  if k = 0 then .toolCalls [⟨"web_search", "1", "q1"⟩]
  else if k = 1 then .toolCalls [⟨"web_search", "2", "q2"⟩]
  else .answer "ans"

/-- C8 counterexample: with `max_searches = 3` and a model that answers its
first turn directly, the Research agent issues zero search calls — not
exactly 3 — and, having gathered zero references, returns the model's own
text with no synthesis call, not a fixed "no results" answer. -/
theorem research_agent_c8_counterexample :
    (ResearchAgent_query immediateAnswerScript emptySearchEnv "capital?" 3).2.2.1.search_invocations = 0
    ∧ (ResearchAgent_query immediateAnswerScript emptySearchEnv "capital?" 3).1.final_answer =
        "Paris is the capital of France."
    ∧ (ResearchAgent_query immediateAnswerScript emptySearchEnv "capital?" 3).2.1 = 0 :=
  ⟨rfl, rfl, rfl⟩

/-- C8 amended: the Research agent runs an iterative tool-calling loop (cap
10 turns) executing requested web searches sequentially, each capped at
`max_searches` executions (excess requests receive an error observation and
change nothing); a failing search yields an error observation and does not
prevent the remaining searches of the same turn from contributing references;
searches may span several turns; after the loop exactly one synthesis/citation
model call is made when at least one search executed and none otherwise, in
which case the answer is the model's own text rather than a fixed "no results"
answer. -/
theorem research_agent_c8_amended :
    (∀ (env : ResEnv) (mx : ℕ) (acc : ResState × List ResMsg × List ResStep)
        (idv q : String),
      mx ≤ acc.1.search_count →
      processResCall env mx acc ⟨"web_search", idv, q⟩ =
        (acc.1,
          acc.2.1 ++ [.toolMsg
            (.errorObs ("Maximum search limit (" ++ toString mx ++ ") reached")) idv],
          acc.2.2 ++ [⟨acc.2.2.length + 1, "web_search", q,
            .errorObs ("Maximum search limit (" ++ toString mx ++ ") reached")⟩]))
    ∧ (∀ (llm : List ResMsg → ResTurn) (env : ResEnv) (uq : String) (mx : ℕ),
      ((ResearchAgent_query llm env uq mx).2.2.1.search_count = 0 →
        (ResearchAgent_query llm env uq mx).2.1 = 0)
      ∧ (0 < (ResearchAgent_query llm env uq mx).2.2.1.search_count →
        (ResearchAgent_query llm env uq mx).2.1 = 1))
    ∧ (ResearchAgent_query mixScript mixEnv "uq" 3).2.2.1.all_references =
        [⟨"ref_1", "T", "U", "S"⟩]
    ∧ ((ResearchAgent_query mixScript mixEnv "uq" 3).1.steps.map
        (fun s => s.observation) =
      [.errorObs "boom", .resultsObs [⟨"ref_1", "T", "U", "S"⟩]])
    ∧ (ResearchAgent_query mixScript mixEnv "uq" 3).2.2.1.search_invocations = 2
    ∧ (ResearchAgent_query mixScript mixEnv "uq" 3).2.1 = 1
    ∧ (ResearchAgent_query twoTurnSearchScript mixEnv "uq" 3).2.2.1.search_count = 2
    ∧ (ResearchAgent_query twoTurnSearchScript mixEnv "uq" 3).2.2.2 = 3 := by
  refine ⟨?_, ?_, rfl, rfl, rfl, rfl, rfl, rfl⟩
  · intro env mx acc idv q h
    simp only [processResCall, if_pos rfl, if_pos h, if_true]
  · intro llm env uq mx
    constructor
    · intro h
      have h0 : (resLoop llm env mx 10
          (⟨0, 0, [], 0⟩, [.human uq], [])).1.1.search_count = 0 := h
      simp [ResearchAgent_query, h0]
    · intro h
      have h0 : 0 < (resLoop llm env mx 10
          (⟨0, 0, [], 0⟩, [.human uq], [])).1.1.search_count := h
      simp [ResearchAgent_query, h0]

/-- Concrete instantiation of `research_agent_c8_amended`: the zero-search
run makes zero synthesis calls (hypothesis discharged at the concrete
input). -/
theorem research_agent_c8_amended_witness :
    (ResearchAgent_query immediateAnswerScript emptySearchEnv "capital?" 3).2.1 = 0 :=
  (research_agent_c8_amended.2.1 immediateAnswerScript emptySearchEnv
    "capital?" 3).1 rfl

end ResearchAgentM

namespace OrchAgent

/-- One tool call of the supervisor's latest assistant message; `args_query`
is `none` when the arguments carry no `query` key. -/
structure ToolCall where
  name : String
  id : String
  args_query : Option String

/-- The result dict a tool execution hands back: a completed sub-agent dict
(carrying `result_summary`) or the unknown-tool error dict (no
`result_summary` key). -/
inductive ResultDict
  | success (result_summary : String)
  | unknownToolError (msg : String)

/-- Serialized content of a tool message: `json.dumps(result["result_summary"])`
when the dict has one, otherwise the JSON of the error dict. -/
inductive ObsPayload
  | summaryText (s : String)
  | errorJson (msg : String)

/-- Conversation messages of the orchestrator graph. -/
inductive OMsg
  | human (content : String)
  | ai (content : String) (tool_calls : List ToolCall)
  | toolMsg (content : ObsPayload) (tool_call_id : String)

/-- The four `_execute_*` wrappers as collaborators.  Each wrapper catches
every exception internally and returns a result dict, so they are total
functions from the sub-query to the `result_summary`. -/
structure OrchEnv where
  sql_agent : String → String
  rag_agent : String → String
  research_agent : String → String
  datetime_tool : String

/-- The tuple `(agent_name, result, tool_id, error)` produced by
`execute_tool`. -/
structure ExecResult where
  agent_name : String
  result : Option ResultDict
  tool_id : String
  error : Option String

/-- `execute_tool` inside `tool_node`: the four known names dispatch to their
wrapper; an unknown name returns the `{"error": "Unknown tool: ..."}` dict
through the success path (`error = none`); a missing `query` argument raises
`KeyError`, which the `except` clause converts to the error path. -/
def execute_tool (env : OrchEnv) (tc : ToolCall) : ExecResult :=
  if tc.name = "call_sql_agent" then
    match tc.args_query with
    | some q => ⟨"sql_agent", some (.success (env.sql_agent q)), tc.id, none⟩
    | none => ⟨tc.name, none, tc.id,
        some ("Error executing " ++ tc.name ++ ": KeyError: query")⟩
  else if tc.name = "call_rag_agent" then
    match tc.args_query with
    | some q => ⟨"rag_agent", some (.success (env.rag_agent q)), tc.id, none⟩
    | none => ⟨tc.name, none, tc.id,
        some ("Error executing " ++ tc.name ++ ": KeyError: query")⟩
  else if tc.name = "call_research_agent" then
    match tc.args_query with
    | some q => ⟨"research_agent", some (.success (env.research_agent q)), tc.id, none⟩
    | none => ⟨tc.name, none, tc.id,
        some ("Error executing " ++ tc.name ++ ": KeyError: query")⟩
  else if tc.name = "get_current_datetime" then
    ⟨"datetime_tool", some (.success env.datetime_tool), tc.id, none⟩
  else
    ⟨tc.name, some (.unknownToolError ("Unknown tool: " ++ tc.name)), tc.id, none⟩

/-- Python dict write `agent_responses[name] = result` on an insertion-ordered
association list. -/
def respUpdate : List (String × ResultDict) → String → ResultDict →
    List (String × ResultDict)
  | [], k, v => [(k, v)]
  | (k0, v0) :: rest, k, v =>
      if k0 = k then (k0, v) :: rest else (k0, v0) :: respUpdate rest k v

/-- Graph state of the orchestrator (plus the agent's own
`parallel_executions` attribute). -/
structure OState where
  messages : List OMsg
  agents_called : List String
  agent_responses : List (String × ResultDict)
  final_answer : String
  parallel_executions : ℕ

/-- The fan-in fold of `tool_node`: gathered results are consumed in call
order; an errored call only appends its error tool-message, while a result
carried through the success path (`error = none`) appends the agent name to
`agents_called`, stores the dict in `agent_responses`, and appends its
observation.  (The `none, none` case cannot be produced by `execute_tool`.) -/
def foldResults (st : OState) : List ExecResult → OState
  | [] => st
  | r :: rest =>
      match r.error, r.result with
      | some e, _ =>
          foldResults
            { st with messages := st.messages ++ [.toolMsg (.errorJson e) r.tool_id] }
            rest
      | none, some rd =>
          let obs := match rd with
            | .success s => ObsPayload.summaryText s
            | .unknownToolError m => ObsPayload.errorJson m
          foldResults
            { st with
              agents_called := st.agents_called ++ [r.agent_name]
              agent_responses := respUpdate st.agent_responses r.agent_name rd
              messages := st.messages ++ [.toolMsg obs r.tool_id] }
            rest
      | none, none =>
          foldResults
            { st with messages := st.messages ++ [.toolMsg (.errorJson "") r.tool_id] }
            rest

/-- `tool_node`: execute every tool call of the latest assistant message
(concurrently in the source; `asyncio.gather` preserves call order, so the
fold consumes them in call order), bump `parallel_executions` when the turn
carried more than one call, and fold the results into the state. -/
def tool_node (env : OrchEnv) (st : OState) : OState :=
  match st.messages.getLast? with
  | some (.ai _ tcs) =>
      if tcs.isEmpty then st
      else
        let results := tcs.map (execute_tool env)
        let st1 :=
          if 1 < tcs.length then
            { st with parallel_executions := st.parallel_executions + 1 }
          else st
        foldResults st1 results
  | _ => st

/-- `final_node`: the last assistant-authored content, else the literal
fallback. -/
def lastAiContent (ms : List OMsg) : Option String :=
  ms.foldl (fun acc m => match m with | .ai c _ => some c | _ => acc) none

def final_node (st : OState) : OState :=
  { st with final_answer := (lastAiContent st.messages).getD "No answer generated." }

/-- The compiled graph loop: `supervisor → (tools | final)`, `tools →
supervisor`.  The source imposes NO iteration bound of its own (the
`max_iterations` argument of `query` is never read), so the embedding is
fuel-indexed: the Boolean reports whether `final` was reached within `fuel`
supervisor invocations, and the counter how many supervisor invocations ran. -/
def runLoop (llm : List OMsg → String × List ToolCall) (env : OrchEnv) :
    ℕ → OState → OState × Bool × ℕ
  | 0, st => (st, false, 0)
  | n + 1, st =>
      let resp := llm st.messages
      let st1 := { st with messages := st.messages ++ [.ai resp.1 resp.2] }
      if resp.2.isEmpty then (final_node st1, true, 1)
      else
        let r := runLoop llm env n (tool_node env st1)
        (r.1, r.2.1, r.2.2 + 1)

/-- `OrchestratorAgent._determine_mode`. -/
def _determine_mode (agents_called : List String) (parallel_count : ℕ) : String :=
  if agents_called.length = 0 then "none"
  else if agents_called.length = 1 then "single"
  else if 0 < parallel_count then "parallel"
  else "sequential"

/-- `OrchestratorAgent.query`: seed the conversation from the history
(user/assistant roles only) plus the new user message, run the graph, then
assemble the outcome.  `max_iterations` is accepted and — exactly as in the
source — never used; `fuel` bounds the embedding's unrolling and the Boolean
says whether the graph actually reached `final` within it. -/
def OrchestratorAgent_query (llm : List OMsg → String × List ToolCall)
    (env : OrchEnv) (history : List (String × String)) (user_query : String)
    (max_iterations : ℕ) (fuel : ℕ) :
    (String × List String × String × List (String × ResultDict)) × Bool × ℕ :=
  let msgs0 :=
    (history.filterMap fun p =>
      if p.1 = "user" then some (OMsg.human p.2)
      else if p.1 = "assistant" then some (OMsg.ai p.2 [])
      else none) ++ [OMsg.human user_query]
  let st0 : OState := ⟨msgs0, [], [], "", 0⟩
  let r := runLoop llm env fuel st0
  ((r.1.final_answer, r.1.agents_called,
    _determine_mode r.1.agents_called r.1.parallel_executions,
    r.1.agent_responses), r.2.1, r.2.2)

end OrchAgent

namespace OrchAgent

/-- Collaborators returning a tagged summary per sub-query. -/
def successEnv : OrchEnv :=
  ⟨fun q => "sql:" ++ q, fun q => "rag:" ++ q, fun q => "res:" ++ q, "now"⟩

/-- Scripted model that requests a SQL tool call on every supervisor turn. -/
def alwaysToolScript : List OMsg → String × List ToolCall := fun _ =>
  ("", [⟨"call_sql_agent", "1", some "q"⟩])

/-- C1 (violated by the code): `OrchestratorAgent.query` accepts
`max_iterations` but the compiled graph reads no iteration cap at all, so
under a model that requests a tool call on every turn the loop NEVER reaches
`Final` — for every fuel the run is unfinished, and in particular with the
caller's `max_iterations = 5` the run has already consumed 6 supervisor
iterations without any forced fallback transition. -/
theorem orchestrator_no_iteration_cap :
    (∀ (env : OrchEnv) (fuel : ℕ) (st : OState),
      (runLoop alwaysToolScript env fuel st).2.1 = false)
    ∧ (OrchestratorAgent_query alwaysToolScript successEnv [] "q" 5 6).2.1 = false
    ∧ (OrchestratorAgent_query alwaysToolScript successEnv [] "q" 5 6).2.2 = 6 := by
  refine ⟨?_, rfl, rfl⟩
  intro env fuel
  induction fuel with
  | zero => intro st; rfl
  | succ n ih =>
      intro st
      simp [runLoop, alwaysToolScript, ih]

/-- Scripted model: one turn with two simultaneous tool calls, then an
answer. -/
def parScript (msgs : List OMsg) : String × List ToolCall :=
  let k := (msgs.filter fun m =>
    match m with | .ai _ _ => true | _ => false).length
  if k = 0 then
    ("", [⟨"call_sql_agent", "1", some "a"⟩, ⟨"call_rag_agent", "2", some "b"⟩])
  else ("ANS", [])

/-- Scripted model: two turns of one tool call each, then an answer. -/
def seqScript (msgs : List OMsg) : String × List ToolCall :=
  let k := (msgs.filter fun m =>
    match m with | .ai _ _ => true | _ => false).length
  if k = 0 then ("", [⟨"call_sql_agent", "1", some "a"⟩])
  else if k = 1 then ("", [⟨"call_rag_agent", "2", some "b"⟩])
  else ("ANS", [])

/-- Scripted model: one turn with one tool call, then an answer. -/
def singleScript (msgs : List OMsg) : String × List ToolCall :=
  let k := (msgs.filter fun m =>
    match m with | .ai _ _ => true | _ => false).length
  if k = 0 then ("", [⟨"call_sql_agent", "1", some "a"⟩])
  else ("ANS", [])

/-- Scripted model that answers at once, requesting no tools. -/
def noToolScript : List OMsg → String × List ToolCall := fun _ => ("ANS", [])

/-- C5: `_determine_mode` classifies — in this priority order — `none` for
zero invoked capabilities, `single` for exactly one, `parallel` when some
Tools step carried more than one call, else `sequential`; end-to-end, one
assistant turn with two tool calls yields `parallel`, two turns of one call
each yield `sequential`, one turn with one call yields `single`, and zero
tool calls yield `none`. -/
theorem determine_mode_classification :
    (∀ (ac : List String) (pc : ℕ),
      (_determine_mode ac pc = "none" ↔ ac.length = 0)
      ∧ (_determine_mode ac pc = "single" ↔ ac.length = 1)
      ∧ (_determine_mode ac pc = "parallel" ↔ 2 ≤ ac.length ∧ 0 < pc)
      ∧ (_determine_mode ac pc = "sequential" ↔ 2 ≤ ac.length ∧ pc = 0))
    ∧ (OrchestratorAgent_query parScript successEnv [] "q" 5 5).1.2.2.1 = "parallel"
    ∧ (OrchestratorAgent_query parScript successEnv [] "q" 5 5).1.2.1 =
        ["sql_agent", "rag_agent"]
    ∧ (OrchestratorAgent_query parScript successEnv [] "q" 5 5).2.1 = true
    ∧ (OrchestratorAgent_query seqScript successEnv [] "q" 5 5).1.2.2.1 = "sequential"
    ∧ (OrchestratorAgent_query seqScript successEnv [] "q" 5 5).1.2.1 =
        ["sql_agent", "rag_agent"]
    ∧ (OrchestratorAgent_query singleScript successEnv [] "q" 5 5).1.2.2.1 = "single"
    ∧ (OrchestratorAgent_query noToolScript successEnv [] "q" 5 5).1.2.2.1 = "none"
    ∧ (OrchestratorAgent_query noToolScript successEnv [] "q" 5 5).1.1 = "ANS" := by
  refine ⟨?_, rfl, rfl, rfl, rfl, rfl, rfl, rfl, rfl⟩
  intro ac pc
  by_cases h0 : ac.length = 0
  · simp [_determine_mode, h0]
  · by_cases h1 : ac.length = 1
    · simp [_determine_mode, h0, h1]
    · have h2 : 2 ≤ ac.length := by omega
      by_cases hp : 0 < pc
      · have hp' : ¬ pc = 0 := by omega
        simp [_determine_mode, h0, h1, h2, hp, hp']
      · have hp' : pc = 0 := by omega
        simp [_determine_mode, h0, h1, h2, hp, hp']

/-- Scripted model: one turn requesting a tool named `foo_tool` (unknown),
then an answer. -/
def fooToolScript (msgs : List OMsg) : String × List ToolCall :=
  let k := (msgs.filter fun m =>
    match m with | .ai _ _ => true | _ => false).length
  if k = 0 then ("", [⟨"foo_tool", "1", some "x"⟩])
  else ("ANS", [])

/-- C9: a tool call whose name is none of the four known tools returns the
unknown-tool error dict through the success path (`error = none`), so its name
is appended to `agents_called`, its error payload is stored in
`agent_responses`, and the mode classification counts it — a run whose only
call names `foo_tool` ends with `agents_called = ["foo_tool"]` and mode
`single`. -/
theorem unknown_tool_success_path :
    (∀ (env : OrchEnv) (tc : ToolCall),
      tc.name ≠ "call_sql_agent" → tc.name ≠ "call_rag_agent" →
      tc.name ≠ "call_research_agent" → tc.name ≠ "get_current_datetime" →
      execute_tool env tc =
        ⟨tc.name, some (.unknownToolError ("Unknown tool: " ++ tc.name)), tc.id, none⟩)
    ∧ (OrchestratorAgent_query fooToolScript successEnv [] "q" 5 5).1.2.1 = ["foo_tool"]
    ∧ (OrchestratorAgent_query fooToolScript successEnv [] "q" 5 5).1.2.2.2 =
        [("foo_tool", .unknownToolError "Unknown tool: foo_tool")]
    ∧ (OrchestratorAgent_query fooToolScript successEnv [] "q" 5 5).1.2.2.1 = "single"
    ∧ (OrchestratorAgent_query fooToolScript successEnv [] "q" 5 5).2.1 = true := by
  refine ⟨?_, rfl, rfl, rfl, rfl⟩
  intro env tc h1 h2 h3 h4
  simp [execute_tool, h1, h2, h3, h4]

/-- Concrete instantiation of `unknown_tool_success_path`: the unknown name
`foo_tool` goes through the success path with `error = none`. -/
theorem unknown_tool_success_path_witness :
    execute_tool successEnv ⟨"foo_tool", "1", some "x"⟩ =
      ⟨"foo_tool", some (.unknownToolError ("Unknown tool: " ++ "foo_tool")), "1", none⟩ :=
  unknown_tool_success_path.1 successEnv ⟨"foo_tool", "1", some "x"⟩
    (by decide) (by decide) (by decide) (by decide)

end OrchAgent
